import Mathlib

/-!
Verification of the session-orchestration core of the GGJ2 party-game server
(`server/src/Squad.js`, `server/src/GameManager.js`, the socket handlers of the
server entry point, and `server/src/puzzleData.js`).

The JavaScript code is shallowly embedded:
* JS `Map` objects become association lists (`lookupKey` / `setKey`), which
  preserves the overwrite-on-set and first-match-lookup semantics.
* socket ids and other identifier strings become `String`; submitted codes and
  code fragments become `List Char` (a JS fragment array holds one-character
  strings, so joining it is concatenation of the characters).
* `Date.now()` timestamps become `Nat` parameters supplied by the caller.
* every call to `Math.random()` becomes an explicit oracle argument (`Rng`),
  reduced to the range the JS expression produces (`% bound` mirrors
  `Math.floor(Math.random() * bound)`).
* payload fields that the core never interprets (nicknames, drawings, tells,
  prompts, heartbeat bookkeeping) are omitted from the records.
-/

/-! ### Association-list maps (embedding of JS `Map`) -/

/-- `Map.get`: first binding of the key, if any. -/
def lookupKey {α : Type} (m : List (String × α)) (k : String) : Option α :=
  match m with
  | [] => none
  | (k2, v) :: rest => if k2 = k then some v else lookupKey rest k

/-- `Map.set`: overwrite the first binding of the key, or append a new one. -/
def setKey {α : Type} (m : List (String × α)) (k : String) (v : α) :
    List (String × α) :=
  match m with
  | [] => [(k, v)]
  | (k2, v2) :: rest =>
      if k2 = k then (k, v) :: rest else (k2, v2) :: setKey rest k v

/-! ### Fisher–Yates shuffle (embedding of the loop in `formSquads`) -/

/-- One `[playerList[i], playerList[j]] = [playerList[j], playerList[i]]`
exchange; out-of-range indices leave the list unchanged. -/
def listSwap {α : Type} (l : List α) (i j : Nat) : List α :=
  match l[i]?, l[j]? with
  | some x, some y => (l.set i y).set j x
  | _, _ => l

/-- Tail of the Fisher–Yates loop: process indices `i, i-1, …, 1`,
swapping position `i` with position `rand i`. -/
def fyAux {α : Type} (rand : Nat → Nat) : Nat → List α → List α
  | 0, l => l
  | i + 1, l => fyAux rand i (listSwap l (i + 1) (rand (i + 1)))

/-- The whole shuffle loop (`for i = length-1; i > 0; i--`). The oracle
`rand i` stands for the value of `Math.floor(Math.random() * (i + 1))`. -/
def fisherYates {α : Type} (rand : Nat → Nat) (l : List α) : List α :=
  fyAux rand (l.length - 1) l

/-! ### Data model (`Squad.js`, `GameManager.js`) -/

/-- A registered player (`GameManager.registerPlayer`); the opaque payload
fields (nickname, drawing, tell, prompt, joinedAt) are omitted. -/
structure Player where
  id : String
  squad : Option String
  deriving Repr, DecidableEq

/-- A squad member as stored by `Squad.addPlayer` (payload fields and the
heartbeat timestamp omitted). -/
structure SquadMember where
  id : String
  index : Nat
  connected : Bool
  scanComplete : Bool
  deriving Repr, DecidableEq

/-- The `Squad` class state. `scanMap` maps scanner id to scanned target id;
the ephemeral `minigameStates` map is modelled separately with the tumbler
handler, and `syncTimer` (a JS timer handle) is not part of this model. -/
structure Squad where
  id : String
  players : List SquadMember
  scanMap : List (String × String)
  teamSize : Nat
  maxSize : Nat
  minSize : Nat
  isLoopComplete : Bool
  progress : Nat
  currentMinigame : Option String
  currentView : String
  completedAt : Option Nat
  finishPosition : Option Nat
  tasksCompleted : Nat
  puzzleId : Option String
  correctSymbol : Nat
  deriving Repr, DecidableEq

/-- The `Squad` constructor (`new Squad(id, teamSize)`). -/
def mkSquad (id : String) (teamSize : Nat) : Squad :=
  { id := id
    players := []
    scanMap := []
    teamSize := teamSize
    maxSize := teamSize
    minSize := teamSize
    isLoopComplete := false
    progress := 0
    currentMinigame := none
    currentView := "lobby"
    completedAt := none
    finishPosition := none
    tasksCompleted := 0
    puzzleId := none
    correctSymbol := 0 }

/-- `Squad.addPlayer`: reject when full, else push with the next index. -/
def Squad.addPlayer (s : Squad) (p : Player) : Bool × Squad :=
  if s.maxSize ≤ s.players.length then
    (false, s)
  else
    (true,
      { s with
          players := s.players ++
            [{ id := p.id
               index := s.players.length
               connected := true
               scanComplete := false }] })

/-- `Squad.getTarget`: the member after the given one in circular order. -/
def Squad.getTarget (s : Squad) (playerId : String) : Option SquadMember :=
  match s.players.findIdx? (fun p => p.id = playerId) with
  | none => none
  | some playerIndex => s.players[(playerIndex + 1) % s.players.length]?

/-- `Squad.checkLoopComplete`: every member's recorded scan is exactly the
next member in circular order. -/
def Squad.checkLoopComplete (s : Squad) : Bool :=
  if s.players.length < 2 then
    false
  else
    (List.range s.players.length).all fun i =>
      match s.players[i]?, s.players[(i + 1) % s.players.length]? with
      | some player, some expectedTarget =>
          lookupKey s.scanMap player.id == some expectedTarget.id
      | _, _ => false

/-- The `scanner.scanComplete = true` assignment inside `recordScan`
(`players.find` mutates the first member with the scanner's id). -/
def markScanComplete : List SquadMember → String → List SquadMember
  | [], _ => []
  | p :: rest, scannerId =>
      if p.id = scannerId then
        { p with scanComplete := true } :: rest
      else
        p :: markScanComplete rest scannerId

/-- `Squad.recordScan`: accept iff the claimed target is the scanner's
expected circular target; on acceptance record the scan, mark the scanner
and recompute `isLoopComplete` from scratch. -/
def Squad.recordScan (s : Squad) (scannerId targetId : String) : Bool × Squad :=
  match s.getTarget scannerId with
  | none => (false, s)
  | some expectedTarget =>
      if expectedTarget.id = targetId then
        let s1 := { s with
          scanMap := setKey s.scanMap scannerId targetId
          players := markScanComplete s.players scannerId }
        (true, { s1 with isLoopComplete := s1.checkLoopComplete })
      else
        (false, s)

/-- `Squad.getCompletedScans`. -/
def Squad.getCompletedScans (s : Squad) : Nat :=
  s.scanMap.length

/-- `Squad.setView`: track the view plus the task counter side effects. -/
def Squad.setView (s : Squad) (view : String) : Squad :=
  let s1 := { s with currentView := view }
  if view = "tumbler" then { s1 with tasksCompleted := 1 }
  else if view = "getaway" then { s1 with tasksCompleted := 2 }
  else if view = "complete" then { s1 with tasksCompleted := 3 }
  else s1

/-- `Squad.markComplete` (the spec calls it `markFinished`): unconditionally
stamp completion time, position, terminal view and task counter. -/
def Squad.markComplete (s : Squad) (now : Nat) (position : Nat) : Squad :=
  { s with
      completedAt := some now
      finishPosition := some position
      currentView := "complete"
      tasksCompleted := 3 }

/-- `Squad.setMinigame`. -/
def Squad.setMinigame (s : Squad) (minigame : String) : Squad :=
  { s with currentMinigame := some minigame }

/-- `Squad.updateProgress`: add a delta, clamped into `[0, 100]`. -/
def Squad.updateProgress (s : Squad) (delta : Int) : Squad :=
  { s with progress := (min 100 (max 0 ((s.progress : Int) + delta))).toNat }

/-! ### Puzzle catalog (`puzzleData.js`) -/

/-- One catalog entry; the symbol grid, colors, name and clue texts are
static display data and are not modelled. -/
structure Puzzle where
  id : String
  correctIndex : Nat
  deriving Repr, DecidableEq

/-- The static `PUZZLES` catalog with each entry's `correctIndex`. -/
def PUZZLES : List Puzzle :=
  [ { id := "cyber_runes", correctIndex := 7 }
  , { id := "math_symbols", correctIndex := 2 }
  , { id := "card_suits", correctIndex := 4 }
  , { id := "arrows", correctIndex := 5 }
  , { id := "planets", correctIndex := 5 }
  , { id := "zodiac", correctIndex := 6 }
  , { id := "weather", correctIndex := 4 } ]

/-- `getRandomPuzzle`, with the random draw given as an oracle value. -/
def getRandomPuzzle (choice : Nat) : Puzzle :=
  PUZZLES.getD (choice % PUZZLES.length) { id := "", correctIndex := 0 }

/-! ### GameManager state and operations -/

/-- The random oracles consumed by `GameManager` operations: `shuffle i` is
the Fisher–Yates draw for index `i`; `puzzleChoice k`, `symbolChoice k` and
`fragChoice k j` are the draws made while processing the `k`-th squad. -/
structure Rng where
  shuffle : Nat → Nat
  puzzleChoice : Nat → Nat
  symbolChoice : Nat → Nat
  fragChoice : Nat → Nat → Nat

/-- `GameManager` state (the transport handle `io`, `drawings`,
`maxPlayers` and `gracePeriodsMs` play no role in the claims). -/
structure GameManager where
  phase : String
  players : List Player
  squads : List (String × Squad)
  codeFragments : List (String × List Char)
  squadSize : Nat
  deriving Repr, DecidableEq

/-- `GameManager.canStartGame`: player count at least the team size and an
exact multiple of it; failures carry the human-readable message. -/
def GameManager.canStartGame (gm : GameManager) : Bool × String :=
  let count := gm.players.length
  if count < gm.squadSize then
    (false, "Need at least " ++ toString gm.squadSize ++ " players")
  else if count % gm.squadSize ≠ 0 then
    let needed := gm.squadSize - count % gm.squadSize
    (false, "Need " ++ toString needed ++ " more players for even teams")
  else
    (true, "Ready to start")

/-- `GameManager.formSquads`: shuffle the registered players, then cut the
shuffled list into contiguous groups of `squadSize`, added one by one via
`Squad.addPlayer`; finally record each member's squad id on their player
record. -/
def GameManager.formSquads (shuffle : Nat → Nat) (gm : GameManager) :
    GameManager :=
  let playerList := fisherYates shuffle gm.players
  let numSquads := playerList.length / gm.squadSize
  let squads := (List.range numSquads).map fun squadIdx =>
    let squadId := "squad_" ++ toString (squadIdx + 1)
    let chunk := (playerList.drop (squadIdx * gm.squadSize)).take gm.squadSize
    (squadId, chunk.foldl (fun sq p => (sq.addPlayer p).2) (mkSquad squadId gm.squadSize))
  let assignments : List (String × String) :=
    squads.foldl (fun acc sp => acc ++ sp.2.players.map fun m => (m.id, sp.1)) []
  let players := gm.players.map fun p =>
    match lookupKey assignments p.id with
    | some squadId => { p with squad := some squadId }
    | none => p
  { gm with squads := squads, players := players }

/-- The keypad alphabet used by `generateCodeFragments`. -/
def keypadChars : List Char :=
  ['A', 'B', 'C', 'D', 'E', 'F', 'G', 'H',
   '1', '2', '3', '4', '5', '6', '7', '8']

/-- `GameManager.generateCodeFragments`: one random keypad character per
player. -/
def generateCodeFragments (frag : Nat → Nat) (teamSize : Nat) : List Char :=
  (List.range teamSize).map fun i =>
    keypadChars.getD (frag i % keypadChars.length) 'A'

/-- The per-squad body of the `heist` branch of `setPhase`: assign a random
puzzle (recording its id and correct index), set the minigame and view, then
overwrite `correctSymbol` with a fresh uniform draw from `[0, 9)`. The
generated clue strings (`squad.clues`) are display data and are omitted. -/
def applyHeistSquad (rng : Rng) (k : Nat) (sq : Squad) : Squad :=
  let puzzle := getRandomPuzzle (rng.puzzleChoice k)
  let sq1 := { sq with puzzleId := some puzzle.id, correctSymbol := puzzle.correctIndex }
  let sq2 := sq1.setMinigame "signal_jammer"
  let sq3 := sq2.setView "signal_jammer"
  { sq3 with correctSymbol := rng.symbolChoice k % 9 }

/-- The `heist` branch of `setPhase`: per squad, store a fresh code-fragment
sequence sized by its member count and run `applyHeistSquad`. -/
def heistUpdate (rng : Rng) (gm : GameManager) : GameManager :=
  let numbered := gm.squads.enum
  let codeFragments := numbered.foldl
    (fun acc p =>
      setKey acc p.2.1 (generateCodeFragments (rng.fragChoice p.1) p.2.2.players.length))
    gm.codeFragments
  let squads := numbered.map fun p => (p.2.1, applyHeistSquad rng p.1 p.2.2)
  { gm with codeFragments := codeFragments, squads := squads }

/-- The `getaway` branch of `setPhase`: generate fallback codes for squads
that have none yet. -/
def getawayUpdate (rng : Rng) (gm : GameManager) : GameManager :=
  let codeFragments := gm.squads.enum.foldl
    (fun acc p =>
      if (lookupKey acc p.2.1).isNone then
        setKey acc p.2.1 (generateCodeFragments (rng.fragChoice p.1) p.2.2.players.length)
      else acc)
    gm.codeFragments
  { gm with codeFragments := codeFragments }

/-- `GameManager.setPhase`: validate (and form squads) for `chain`, commit
the phase, then run the `heist` / `getaway` side effects. -/
def GameManager.setPhase (rng : Rng) (gm : GameManager) (newPhase : String) :
    (Bool × Option String) × GameManager :=
  if newPhase = "chain" then
    let validation := gm.canStartGame
    if validation.1 = false then
      ((false, some validation.2), gm)
    else
      let gm1 := GameManager.formSquads rng.shuffle gm
      ((true, none), { gm1 with phase := newPhase })
  else
    let gm1 := { gm with phase := newPhase }
    if newPhase = "heist" then
      ((true, none), heistUpdate rng gm1)
    else if newPhase = "getaway" then
      ((true, none), getawayUpdate rng gm1)
    else
      ((true, none), gm1)

/-- `GameManager.handleSignalJammerGuess`: resolve the player's squad and
compare the guess with `squad.correctSymbol || 0` (the field is a `Nat`
defaulting to 0, which renders the JS `|| 0` the identity); on a hit the
squad progresses by 25. The result carries the success flag and, on
success, the new squad progress. -/
def GameManager.handleSignalJammerGuess (gm : GameManager) (playerId : String)
    (symbolIndex : Nat) : (Bool × Option Nat) × GameManager :=
  match gm.players.find? (fun p => p.id = playerId) with
  | none => ((false, none), gm)
  | some player =>
      match player.squad with
      | none => ((false, none), gm)
      | some squadId =>
          match lookupKey gm.squads squadId with
          | none => ((false, none), gm)
          | some squad =>
              let correctSymbol := squad.correctSymbol
              if symbolIndex = correctSymbol then
                let squad2 := squad.updateProgress 25
                ((true, some squad2.progress),
                  { gm with squads := setKey gm.squads squadId squad2 })
              else
                ((false, none), gm)

/-- JS `String.prototype.toUpperCase`, restricted to ASCII (every character
the comparison touches is an ASCII keypad character). -/
def toUpperAscii (c : Char) : Char :=
  if 'a' ≤ c ∧ c ≤ 'z' then Char.ofNat (c.toNat - 32) else c

/-- `GameManager.verifyCode`: joined fragments versus the upper-cased
submission. -/
def GameManager.verifyCode (gm : GameManager) (squadId : String)
    (code : List Char) : Bool :=
  match lookupKey gm.codeFragments squadId with
  | none => false
  | some fragments => code.map toUpperAscii == fragments

/-! ### Server entry-point handlers (socket handlers in `index.js`) -/

/-- Server-level state: the manager plus the `global.finishCounter`
variable used by the `verify_code` handler (initialized to 0). -/
structure ServerState where
  gm : GameManager
  finishCounter : Nat
  deriving Repr, DecidableEq

/-- The `verify_code` socket handler: resolve the caller's squad; an
already-finished squad immediately gets back its stored position; otherwise
a correct code takes the next value of the global finish counter and marks
the squad complete. The result is the success flag and the reported
position. -/
def verifyCodeHandler (st : ServerState) (playerId : String)
    (code : List Char) (now : Nat) : (Bool × Option Nat) × ServerState :=
  match st.gm.players.find? (fun p => p.id = playerId) with
  | none => ((false, none), st)
  | some player =>
      match player.squad with
      | none => ((false, none), st)
      | some squadId =>
          match lookupKey st.gm.squads squadId with
          | none => ((false, none), st)
          | some squad =>
              match squad.finishPosition with
              | some position => ((true, some position), st)
              | none =>
                  if st.gm.verifyCode squadId code then
                    let position := st.finishCounter + 1
                    let squad2 := squad.markComplete now position
                    ((true, some position),
                      { gm := { st.gm with
                          squads := setKey st.gm.squads squadId squad2 }
                        finishCounter := position })
                  else
                    ((false, none), st)

/-- Per-squad synchronization-gate state of the `tumbler_state` handler:
the `global.squadTumblerStates` entry (member id, reported flag, report
timestamp) and the `global.squadTumblerSyncStart` entry. -/
structure TumblerState where
  states : List (String × (Bool × Nat))
  syncStart : Option Nat
  deriving Repr, DecidableEq

/-- The recorded-state update of the handler: store the inbound report,
then evict entries older than the 2-second staleness window. -/
def tumblerRecord (ts : TumblerState) (playerId : String)
    (atSweetSpot : Bool) (now : Nat) : List (String × (Bool × Nat)) :=
  (setKey ts.states playerId (atSweetSpot, now)).filter
    fun e => ¬ now - e.2.2 > 2000

/-- The gate predicate of the handler (`allSynced`): every squad member has
a non-stale recorded state and the number of qualifying states equals the
squad size. -/
def allSynced (squadSize : Nat) (states : List (String × (Bool × Nat))) :
    Bool :=
  states.length = squadSize ∧
    (states.filter fun e => e.2.1).length = squadSize

/-- The `tumbler_state` handler for one squad: record and evict, evaluate
the gate, manage the hold-start timestamp, and fire (first component
`true`) when the gate has held for at least 3 seconds — clearing both the
hold-start and the recorded states so a second firing needs a fresh
qualifying window. -/
def tumblerStep (squadSize : Nat) (ts : TumblerState) (playerId : String)
    (atSweetSpot : Bool) (now : Nat) : Bool × TumblerState :=
  let states2 := tumblerRecord ts playerId atSweetSpot now
  if allSynced squadSize states2 then
    let start := ts.syncStart.getD now
    let syncTime := (now - start) / 1000
    if syncTime ≥ 3 then
      (true, { states := [], syncStart := none })
    else
      (false, { states := states2, syncStart := some start })
  else
    (false, { states := states2, syncStart := none })

/-! ### Concrete fixtures used by witnesses and counterexamples -/

/-- A trivial oracle (all draws are 0). -/
def rng0 : Rng :=
  { shuffle := fun _ => 0
    puzzleChoice := fun _ => 0
    symbolChoice := fun _ => 0
    fragChoice := fun _ _ => 0 }

/-- A lobby with one registered player and the default team size 4. -/
def gmOnePlayer : GameManager :=
  { phase := "lobby"
    players := [{ id := "p1", squad := none }]
    squads := []
    codeFragments := []
    squadSize := 4 }

/-- A lobby with four registered players and team size 2. -/
def gmFourPlayers : GameManager :=
  { phase := "lobby"
    players := [{ id := "p1", squad := none }, { id := "p2", squad := none },
                { id := "p3", squad := none }, { id := "p4", squad := none }]
    squads := []
    codeFragments := []
    squadSize := 2 }

/-- A two-member squad whose chain is fully confirmed. -/
def squadTwoDone : Squad :=
  { mkSquad "squad_1" 2 with
      players := [{ id := "p1", index := 0, connected := true, scanComplete := true },
                  { id := "p2", index := 1, connected := true, scanComplete := true }]
      scanMap := [("p1", "p2"), ("p2", "p1")] }

/-- A freshly formed two-member squad (no puzzle, no scans). -/
def squadTwoFresh : Squad :=
  { mkSquad "squad_1" 2 with
      players := [{ id := "p1", index := 0, connected := true, scanComplete := false },
                  { id := "p2", index := 1, connected := true, scanComplete := false }] }

/-- A manager whose two players sit in the fresh squad `squad_1`. -/
def gmFreshSquad : GameManager :=
  { phase := "chain"
    players := [{ id := "p1", squad := some "squad_1" },
                { id := "p2", squad := some "squad_1" }]
    squads := [("squad_1", squadTwoFresh)]
    codeFragments := []
    squadSize := 2 }

/-- A manager whose squad has the fragment sequence `['A', '3']`. -/
def gmWithCode : GameManager :=
  { gmFreshSquad with codeFragments := [("squad_1", ['A', '3'])] }

/-- Server state around `gmWithCode` with no finisher yet. -/
def stNoFinisher : ServerState :=
  { gm := gmWithCode, finishCounter := 0 }

/-! ### General lemmas about the embedded primitives -/

theorem lookupKey_setKey_self {α : Type} (m : List (String × α)) (k : String)
    (v : α) : lookupKey (setKey m k v) k = some v := by
  induction m with
  | nil => simp [setKey, lookupKey]
  | cons hd tl ih =>
      obtain ⟨k2, v2⟩ := hd
      by_cases h : k2 = k <;> simp [setKey, lookupKey, h, ih]

theorem lookupKey_setKey_other {α : Type} (m : List (String × α))
    (k k2 : String) (v : α) (h : k2 ≠ k) :
    lookupKey (setKey m k v) k2 = lookupKey m k2 := by
  induction m with
  | nil => simp [setKey, lookupKey, Ne.symm h]
  | cons hd tl ih =>
      obtain ⟨k3, v3⟩ := hd
      by_cases h3 : k3 = k
      · subst h3
        simp [setKey, lookupKey, Ne.symm h]
      · by_cases h4 : k3 = k2 <;> simp [setKey, lookupKey, h3, h4, h, ih]

theorem setKey_keys {α : Type} (m : List (String × α)) (k : String) (v : α)
    (h : lookupKey m k ≠ none) :
    (setKey m k v).map Prod.fst = m.map Prod.fst := by
  induction m with
  | nil => simp [lookupKey] at h
  | cons hd tl ih =>
      obtain ⟨k2, v2⟩ := hd
      by_cases h2 : k2 = k
      · subst h2; simp [setKey]
      · simp [lookupKey, h2] at h
        simp [setKey, h2, ih h]

theorem lookupKey_mem {α : Type} {m : List (String × α)} {k : String} {v : α}
    (h : lookupKey m k = some v) : (k, v) ∈ m := by
  induction m with
  | nil => simp [lookupKey] at h
  | cons hd tl ih =>
      obtain ⟨k2, v2⟩ := hd
      by_cases h2 : k2 = k
      · subst h2
        simp [lookupKey] at h
        simp [h]
      · simp [lookupKey, h2] at h
        exact List.mem_cons_of_mem _ (ih h)

/-- Overwriting position `i` (known to hold `x`) with `y` trades one
occurrence of `x` for one of `y` in the multiset of elements. -/
theorem count_set_of_getElem? {α : Type} [DecidableEq α] :
    ∀ (l : List α) (i : Nat) (x y a : α), l[i]? = some x →
      (l.set i y).count a + (if x = a then 1 else 0)
        = l.count a + (if y = a then 1 else 0) := by
  intro l
  induction l with
  | nil => intro i x y a h; simp at h
  | cons b tl ih =>
      intro i x y a h
      cases i with
      | zero =>
          simp only [List.getElem?_cons_zero, Option.some_inj] at h
          subst h
          simp only [List.set_cons_zero, List.count_cons, beq_iff_eq]
          omega
      | succ n =>
          simp only [List.getElem?_cons_succ] at h
          simp only [List.set_cons_succ, List.count_cons, beq_iff_eq]
          have := ih n x y a h
          omega

theorem listSwap_perm {α : Type} [DecidableEq α] (l : List α) (i j : Nat) :
    List.Perm (listSwap l i j) l := by
  unfold listSwap
  cases hi : l[i]? with
  | none => exact List.Perm.refl l
  | some x =>
      cases hj : l[j]? with
      | none => exact List.Perm.refl l
      | some y =>
          show List.Perm ((l.set i y).set j x) l
          apply List.perm_iff_count.mpr
          intro a
          have hj2 : (l.set i y)[j]? = some y := by
            rw [List.getElem?_set]
            by_cases hij : i = j
            · have hlen : i < l.length := by
                by_contra hc
                rw [List.getElem?_eq_none (Nat.le_of_not_lt hc)] at hi
                exact Option.noConfusion hi
              simp [hij, hij ▸ hlen]
            · simp [hij, hj]
          have h1 := count_set_of_getElem? l i x y a hi
          have h2 := count_set_of_getElem? (l.set i y) j y x a hj2
          omega

theorem fyAux_perm {α : Type} [DecidableEq α] (rand : Nat → Nat) :
    ∀ (n : Nat) (l : List α), List.Perm (fyAux rand n l) l := by
  intro n
  induction n with
  | zero => intro l; exact List.Perm.refl l
  | succ i ih =>
      intro l
      exact (ih (listSwap l (i + 1) (rand (i + 1)))).trans
        (listSwap_perm l (i + 1) (rand (i + 1)))

theorem fisherYates_perm {α : Type} [DecidableEq α] (rand : Nat → Nat)
    (l : List α) : List.Perm (fisherYates rand l) l :=
  fyAux_perm rand (l.length - 1) l

/-! ### Supporting lemmas about Squad and GameManager operations -/

theorem updateProgress_25 (s : Squad) :
    (s.updateProgress 25).progress = min 100 (s.progress + 25) := by
  simp only [Squad.updateProgress]
  omega

/-- Every keypad character is its own upper-casing. -/
theorem keypad_toUpper_fixed : ∀ c ∈ keypadChars, toUpperAscii c = c := by
  decide

theorem map_toUpper_of_keypad (fragments : List Char)
    (h : ∀ c ∈ fragments, c ∈ keypadChars) :
    fragments.map toUpperAscii = fragments := by
  induction fragments with
  | nil => rfl
  | cons c rest ih =>
      simp only [List.map_cons]
      rw [keypad_toUpper_fixed c (h c (List.mem_cons_self c rest)),
        ih fun d hd => h d (List.mem_cons_of_mem c hd)]

/-- Generated fragment sequences only use keypad characters. -/
theorem generateCodeFragments_keypad (frag : Nat → Nat) (teamSize : Nat) :
    ∀ c ∈ generateCodeFragments frag teamSize, c ∈ keypadChars := by
  intro c hc
  simp only [generateCodeFragments, List.mem_map] at hc
  obtain ⟨i, _, hci⟩ := hc
  subst hci
  have hlt : frag i % keypadChars.length < keypadChars.length :=
    Nat.mod_lt _ (by decide)
  rw [List.getD_eq_getElem?_getD, List.getElem?_eq_getElem hlt]
  exact keypadChars.getElem_mem hlt

/-- A generated fragment sequence has one character per player. -/
theorem generateCodeFragments_length (frag : Nat → Nat) (teamSize : Nat) :
    (generateCodeFragments frag teamSize).length = teamSize := by
  simp [generateCodeFragments]

/-- Folding `addPlayer` never touches the non-member fields. -/
theorem foldl_addPlayer_fields (chunk : List Player) : ∀ (sq : Squad),
    (chunk.foldl (fun s p => (s.addPlayer p).2) sq).correctSymbol
        = sq.correctSymbol ∧
    (chunk.foldl (fun s p => (s.addPlayer p).2) sq).puzzleId = sq.puzzleId ∧
    (chunk.foldl (fun s p => (s.addPlayer p).2) sq).finishPosition
        = sq.finishPosition ∧
    (chunk.foldl (fun s p => (s.addPlayer p).2) sq).progress = sq.progress ∧
    (chunk.foldl (fun s p => (s.addPlayer p).2) sq).maxSize = sq.maxSize ∧
    (chunk.foldl (fun s p => (s.addPlayer p).2) sq).scanMap = sq.scanMap := by
  induction chunk with
  | nil => intro sq; simp
  | cons p rest ih =>
      intro sq
      have hstep := ih (sq.addPlayer p).2
      have hfield :
          (sq.addPlayer p).2.correctSymbol = sq.correctSymbol ∧
          (sq.addPlayer p).2.puzzleId = sq.puzzleId ∧
          (sq.addPlayer p).2.finishPosition = sq.finishPosition ∧
          (sq.addPlayer p).2.progress = sq.progress ∧
          (sq.addPlayer p).2.maxSize = sq.maxSize ∧
          (sq.addPlayer p).2.scanMap = sq.scanMap := by
        unfold Squad.addPlayer
        by_cases h : sq.maxSize ≤ sq.players.length <;> simp [h]
      simp only [List.foldl_cons]
      exact ⟨hstep.1.trans hfield.1,
        hstep.2.1.trans hfield.2.1,
        hstep.2.2.1.trans hfield.2.2.1,
        hstep.2.2.2.1.trans hfield.2.2.2.1,
        hstep.2.2.2.2.1.trans hfield.2.2.2.2.1,
        hstep.2.2.2.2.2.trans hfield.2.2.2.2.2⟩

/-- As long as the squad has room for the whole chunk, the fold appends
exactly the chunk's ids to the member list. -/
theorem foldl_addPlayer_ids (chunk : List Player) : ∀ (sq : Squad),
    sq.players.length + chunk.length ≤ sq.maxSize →
    (chunk.foldl (fun s p => (s.addPlayer p).2) sq).players.map
        (fun m => m.id)
      = sq.players.map (fun m => m.id) ++ chunk.map (fun p => p.id) := by
  induction chunk with
  | nil => intro sq _; simp
  | cons p rest ih =>
      intro sq hroom
      simp only [List.length_cons] at hroom
      have hnotfull : ¬ sq.maxSize ≤ sq.players.length := by omega
      have hstep : (sq.addPlayer p).2 =
          { sq with players := sq.players ++
              [{ id := p.id, index := sq.players.length,
                 connected := true, scanComplete := false }] } := by
        unfold Squad.addPlayer
        simp [hnotfull]
      simp only [List.foldl_cons, hstep]
      rw [ih _ (by simp; omega)]
      simp

/-- Chunking an exact multiple and joining the chunks reproduces the list. -/
theorem chunks_join {α : Type} (n : Nat) :
    ∀ (q : Nat) (l : List α), l.length = q * n →
      ((List.range q).map fun k => (l.drop (k * n)).take n).flatten = l := by
  intro q
  induction q with
  | zero => intro l hl; simp at hl; simp [hl]
  | succ q2 ih =>
      intro l hl
      rw [List.range_succ_eq_map]
      simp only [List.map_cons, List.map_map, List.flatten_cons, Nat.zero_mul,
        List.drop_zero]
      have hcomp : ((fun k => (l.drop (k * n)).take n) ∘ Nat.succ)
          = fun k => ((l.drop n).drop (k * n)).take n := by
        funext k
        simp only [Function.comp]
        have hidx : Nat.succ k * n = n + k * n := by
          rw [Nat.succ_mul]; omega
        rw [List.drop_drop, hidx]
      have hlen : (l.drop n).length = q2 * n := by
        have h2 : (q2 + 1) * n = q2 * n + n := by ring
        rw [List.length_drop, hl, h2]
        omega
      rw [hcomp, ih (l.drop n) hlen]
      exact List.take_append_drop n l

/-- `checkLoopComplete` only reads the member list and the scan map. -/
theorem checkLoopComplete_congr (s t : Squad) (hp : s.players = t.players)
    (hm : s.scanMap = t.scanMap) :
    s.checkLoopComplete = t.checkLoopComplete := by
  unfold Squad.checkLoopComplete
  rw [hp, hm]

/-- After an accepted scan the stored flag equals a from-scratch
recomputation on the updated squad. -/
theorem recordScan_recomputes (s : Squad) (scannerId targetId : String)
    (h : (s.recordScan scannerId targetId).1 = true) :
    (s.recordScan scannerId targetId).2.isLoopComplete
      = Squad.checkLoopComplete (s.recordScan scannerId targetId).2 := by
  cases hT : s.getTarget scannerId with
  | none => simp [Squad.recordScan, hT] at h
  | some t =>
      by_cases hid : t.id = targetId
      · simp only [Squad.recordScan, hT, if_pos hid]
        exact checkLoopComplete_congr _ _ rfl rfl
      · simp [Squad.recordScan, hT, hid] at h

/-! ### Claim theorems -/

/-- Claim C9, counterexample: `markComplete` on a fresh squad leaves
progress at 0 (not 100), and a second call on the already-finished squad
overwrites the stored position instead of being a no-op. -/
theorem c9_counterexample :
    ((mkSquad "squad_1" 4).markComplete 1000 1).progress = 0 ∧
    ((mkSquad "squad_1" 4).markComplete 1000 1).progress ≠ 100 ∧
    ((mkSquad "squad_1" 4).markComplete 1000 1).finishPosition = some 1 ∧
    (((mkSquad "squad_1" 4).markComplete 1000 1).markComplete 2000 2).finishPosition
        = some 2 := by
  decide

/-- Claim C9 (amended): `markComplete` records the finish position and
completion time, sets the terminal view label and the task counter, and
leaves every other field — in particular `progress` — untouched; it has no
already-finished guard (the caller performs that check), so a repeated
call simply overwrites. -/
theorem c9_markComplete_spec (s : Squad) (now position : Nat) :
    (s.markComplete now position).finishPosition = some position ∧
    (s.markComplete now position).completedAt = some now ∧
    (s.markComplete now position).currentView = "complete" ∧
    (s.markComplete now position).tasksCompleted = 3 ∧
    (s.markComplete now position).progress = s.progress ∧
    (s.markComplete now position).players = s.players ∧
    (s.markComplete now position).scanMap = s.scanMap ∧
    (s.markComplete now position).isLoopComplete = s.isLoopComplete := by
  simp [Squad.markComplete]

/-- Case equation: unknown confirmer (or empty squad). -/
theorem recordScan_of_none (s : Squad) (scannerId targetId : String)
    (h : s.getTarget scannerId = none) :
    s.recordScan scannerId targetId = (false, s) := by
  simp [Squad.recordScan, h]

/-- Case equation: wrong claimed target. -/
theorem recordScan_of_wrong (s : Squad) (scannerId targetId : String)
    (t : SquadMember) (h : s.getTarget scannerId = some t)
    (hne : t.id ≠ targetId) :
    s.recordScan scannerId targetId = (false, s) := by
  simp [Squad.recordScan, h, hne]

/-- Case equation: accepted scan. -/
theorem recordScan_of_right (s : Squad) (scannerId targetId : String)
    (t : SquadMember) (h : s.getTarget scannerId = some t)
    (heq : t.id = targetId) :
    s.recordScan scannerId targetId = (true,
      { s with
          scanMap := setKey s.scanMap scannerId targetId
          players := markScanComplete s.players scannerId
          isLoopComplete := Squad.checkLoopComplete
            { s with
                scanMap := setKey s.scanMap scannerId targetId
                players := markScanComplete s.players scannerId } }) := by
  simp [Squad.recordScan, h, heq]

/-- `getTarget` in terms of `findIdx?` and positional lookup. -/
theorem getTarget_eq (s : Squad) (playerId : String) :
    s.getTarget playerId
      = (s.players.findIdx? (fun p => p.id = playerId)).bind
          (fun i => s.players[(i + 1) % s.players.length]?) := by
  unfold Squad.getTarget
  cases s.players.findIdx? (fun p => p.id = playerId) <;> simp

/-- Claim C4: `recordScan` accepts exactly when the claimed target id is
the id of the member at position `(position(confirmer) + 1) mod N`;
rejection — wrong target, unknown confirmer or unknown slot — returns the
squad completely unchanged (scan map, per-member flags and loop flag
included) as a normal failure; acceptance records the mapping, marks the
scanner and recomputes loop completion on the updated state. -/
theorem c4_recordScan_accept_iff (s : Squad) (scannerId targetId : String) :
    ((s.recordScan scannerId targetId).1 = true ↔
      ∃ i, s.players.findIdx? (fun p => p.id = scannerId) = some i ∧
        ∃ m, s.players[(i + 1) % s.players.length]? = some m ∧
          m.id = targetId) ∧
    ((s.recordScan scannerId targetId).1 = false →
      (s.recordScan scannerId targetId).2 = s) ∧
    ((s.recordScan scannerId targetId).1 = true →
      (s.recordScan scannerId targetId).2.scanMap
          = setKey s.scanMap scannerId targetId ∧
        (s.recordScan scannerId targetId).2.players
          = markScanComplete s.players scannerId ∧
        (s.recordScan scannerId targetId).2.isLoopComplete
          = Squad.checkLoopComplete (s.recordScan scannerId targetId).2) := by
  cases hT : s.getTarget scannerId with
  | none =>
      rw [recordScan_of_none s scannerId targetId hT]
      refine ⟨⟨fun hfalse => Bool.noConfusion hfalse, ?_⟩, fun _ => rfl,
        fun hok => Bool.noConfusion hok⟩
      rintro ⟨i, hi, m, hm, _⟩
      rw [getTarget_eq, hi] at hT
      simp [hm] at hT
  | some t =>
      by_cases hid : t.id = targetId
      · rw [recordScan_of_right s scannerId targetId t hT hid]
        refine ⟨?_, fun hfail => by simp at hfail, fun _ => ⟨rfl, rfl, ?_⟩⟩
        · constructor
          · intro _
            rw [getTarget_eq] at hT
            cases hF : s.players.findIdx? (fun p => p.id = scannerId) with
            | none => rw [hF] at hT; simp at hT
            | some i =>
                rw [hF] at hT
                simp only [Option.some_bind] at hT
                exact ⟨i, rfl, t, hT, hid⟩
          · intro _; rfl
        · exact checkLoopComplete_congr _ _ rfl rfl
      · rw [recordScan_of_wrong s scannerId targetId t hT hid]
        refine ⟨⟨fun hfalse => Bool.noConfusion hfalse, ?_⟩, fun _ => rfl,
          fun hok => Bool.noConfusion hok⟩
        rintro ⟨i, hi, m, hm, hmid⟩
        rw [getTarget_eq, hi] at hT
        simp only [Option.some_bind, hm, Option.some_inj] at hT
        exact absurd (hT ▸ hmid) hid

/-- Claim C1: for a formed team of size at least 2, the loop-completion
flag computed by `checkLoopComplete` is true iff the confirmation map
records, for every member at position `i`, exactly the member at position
`(i + 1) mod N` as that member's confirmed target; and every accepted
confirmation stores a from-scratch recomputation of the flag, so the
stored flag always equals `checkLoopComplete` of the updated state. -/
theorem c1_loop_complete_iff (s : Squad) (h : 2 ≤ s.players.length) :
    (s.checkLoopComplete = true ↔
      ∀ i (hi : i < s.players.length),
        lookupKey s.scanMap (s.players.get ⟨i, hi⟩).id
          = some (s.players.get ⟨(i + 1) % s.players.length,
              Nat.mod_lt _ (by omega)⟩).id) ∧
    (∀ scannerId targetId,
      (s.recordScan scannerId targetId).1 = true →
      (s.recordScan scannerId targetId).2.isLoopComplete
        = Squad.checkLoopComplete (s.recordScan scannerId targetId).2) := by
  constructor
  · unfold Squad.checkLoopComplete
    rw [if_neg (by omega)]
    rw [List.all_eq_true]
    constructor
    · intro hall i hi
      have hmod : (i + 1) % s.players.length < s.players.length :=
        Nat.mod_lt _ (by omega)
      have hstep := hall i (List.mem_range.mpr hi)
      rw [List.getElem?_eq_getElem hi, List.getElem?_eq_getElem hmod] at hstep
      simp only [beq_iff_eq] at hstep
      simpa [List.get_eq_getElem] using hstep
    · intro hpt i hir
      have hi : i < s.players.length := List.mem_range.mp hir
      have hmod : (i + 1) % s.players.length < s.players.length :=
        Nat.mod_lt _ (by omega)
      rw [List.getElem?_eq_getElem hi, List.getElem?_eq_getElem hmod]
      simp only [beq_iff_eq]
      simpa [List.get_eq_getElem] using hpt i hi
  · intro scannerId targetId hok
    exact recordScan_recomputes s scannerId targetId hok

/-- Claim C1, witness: a fully confirmed two-member squad satisfies the
hypothesis and the characterization. -/
theorem c1_loop_complete_iff_witness :
    2 ≤ squadTwoDone.players.length ∧
    ((squadTwoDone.checkLoopComplete = true ↔
      ∀ i (hi : i < squadTwoDone.players.length),
        lookupKey squadTwoDone.scanMap (squadTwoDone.players.get ⟨i, hi⟩).id
          = some (squadTwoDone.players.get ⟨(i + 1) % squadTwoDone.players.length,
              Nat.mod_lt _ (by omega)⟩).id) ∧
    (∀ scannerId targetId,
      (squadTwoDone.recordScan scannerId targetId).1 = true →
      (squadTwoDone.recordScan scannerId targetId).2.isLoopComplete
        = Squad.checkLoopComplete
            (squadTwoDone.recordScan scannerId targetId).2)) :=
  ⟨by decide, c1_loop_complete_iff squadTwoDone (by decide)⟩

/-- Claim C5: `verifyCode` succeeds iff the submission matches the team's
assigned fragment sequence case-insensitively (the fragments are keypad
characters, each fixed by upper-casing, so comparing the upper-cased
submission against the joined fragments is exactly case-insensitive
equality); a team with no assigned sequence always fails. Every sequence
produced by `generateCodeFragments` satisfies the keypad hypothesis. -/
theorem c5_verifyCode_iff (gm : GameManager) (squadId : String)
    (code : List Char) :
    (lookupKey gm.codeFragments squadId = none →
      gm.verifyCode squadId code = false) ∧
    (∀ fragments, lookupKey gm.codeFragments squadId = some fragments →
      (∀ c ∈ fragments, c ∈ keypadChars) →
      (gm.verifyCode squadId code = true ↔
        code.map toUpperAscii = fragments.map toUpperAscii)) ∧
    (∀ frag teamSize, ∀ c ∈ generateCodeFragments frag teamSize,
      c ∈ keypadChars) := by
  refine ⟨?_, ?_, fun frag teamSize => generateCodeFragments_keypad frag teamSize⟩
  · intro hnone
    simp [GameManager.verifyCode, hnone]
  · intro fragments hsome hkey
    rw [map_toUpper_of_keypad fragments hkey]
    simp [GameManager.verifyCode, hsome]

/-- Claim C5, witness: the squad code `['A', '3']` accepts the lower-case
submission `['a', '3']` and the evaluated hypotheses hold. -/
theorem c5_verifyCode_iff_witness :
    (lookupKey gmWithCode.codeFragments "squad_1" = some ['A', '3']) ∧
    (∀ c ∈ ['A', '3'], c ∈ keypadChars) ∧
    (gmWithCode.verifyCode "squad_1" ['a', '3'] = true ↔
      ['a', '3'].map toUpperAscii = ['A', '3'].map toUpperAscii) ∧
    gmWithCode.verifyCode "squad_1" ['a', '3'] = true :=
  ⟨by decide, by decide,
    (c5_verifyCode_iff gmWithCode "squad_1" ['a', '3']).2.1 ['A', '3']
      (by decide) (by decide),
    by decide⟩

/-- Equation lemma exposing the squads built by `formSquads`. -/
theorem formSquads_squads (shuffle : Nat → Nat) (gm : GameManager) :
    (GameManager.formSquads shuffle gm).squads
      = (List.range ((fisherYates shuffle gm.players).length / gm.squadSize)).map
          fun squadIdx =>
            ("squad_" ++ toString (squadIdx + 1),
             (((fisherYates shuffle gm.players).drop
                  (squadIdx * gm.squadSize)).take gm.squadSize).foldl
               (fun sq p => (sq.addPlayer p).2)
               (mkSquad ("squad_" ++ toString (squadIdx + 1)) gm.squadSize)) :=
  rfl

/-- Claim C10: a squad formed by `formSquads` keeps the constructor
defaults `correctSymbol = 0`, `puzzleId = none` and `progress = 0` (no
puzzle was ever assigned), and for any squad whose recorded correct symbol
is still the default 0, a member's guess of answer index 0 is accepted and
advances the squad's progress by 25 (clamped at 100) — so a puzzle guess
can succeed before any puzzle exists. -/
theorem c10_guess_before_puzzle (shuffle : Nat → Nat) (gm : GameManager) :
    (∀ sp ∈ (GameManager.formSquads shuffle gm).squads,
      sp.2.correctSymbol = 0 ∧ sp.2.puzzleId = none ∧ sp.2.progress = 0) ∧
    (∀ (gm2 : GameManager) (playerId squadId : String) (player : Player)
        (squad : Squad),
      gm2.players.find? (fun p => p.id = playerId) = some player →
      player.squad = some squadId →
      lookupKey gm2.squads squadId = some squad →
      squad.correctSymbol = 0 →
      (gm2.handleSignalJammerGuess playerId 0).1
        = (true, some (min 100 (squad.progress + 25)))) := by
  constructor
  · intro sp hsp
    rw [formSquads_squads] at hsp
    simp only [List.mem_map, List.mem_range] at hsp
    obtain ⟨k, _, rfl⟩ := hsp
    have hf := foldl_addPlayer_fields
      (((fisherYates shuffle gm.players).drop (k * gm.squadSize)).take gm.squadSize)
      (mkSquad ("squad_" ++ toString (k + 1)) gm.squadSize)
    exact ⟨hf.1, hf.2.1, hf.2.2.2.1⟩
  · intro gm2 playerId squadId player squad hfind hps hlook hcs
    simp [GameManager.handleSignalJammerGuess, hfind, hps, hlook, hcs,
      updateProgress_25]

/-- Claim C10, witness: in the fresh squad the guess 0 succeeds with
progress 25 although no puzzle was ever assigned. -/
theorem c10_guess_before_puzzle_witness :
    (gmFreshSquad.players.find? (fun p => p.id = "p1")
        = some { id := "p1", squad := some "squad_1" }) ∧
    lookupKey gmFreshSquad.squads "squad_1" = some squadTwoFresh ∧
    squadTwoFresh.correctSymbol = 0 ∧
    squadTwoFresh.puzzleId = none ∧
    (gmFreshSquad.handleSignalJammerGuess "p1" 0).1
      = (true, some (min 100 (squadTwoFresh.progress + 25))) :=
  ⟨by decide, by decide, by decide, by decide,
    (c10_guess_before_puzzle (fun _ => 0) gmFreshSquad).2 gmFreshSquad
      "p1" "squad_1" { id := "p1", squad := some "squad_1" } squadTwoFresh
      (by decide) rfl (by decide) (by decide)⟩

/-- Case equation: gate unsatisfied — no firing, hold-start cleared. -/
theorem tumblerStep_of_not_synced (squadSize : Nat) (ts : TumblerState)
    (playerId : String) (atSweetSpot : Bool) (now : Nat)
    (h : allSynced squadSize (tumblerRecord ts playerId atSweetSpot now)
        = false) :
    tumblerStep squadSize ts playerId atSweetSpot now
      = (false, { states := tumblerRecord ts playerId atSweetSpot now
                  syncStart := none }) := by
  unfold tumblerStep
  rw [if_neg (by simp [h])]

/-- Case equation: gate satisfied with no prior hold-start — the hold
starts now and nothing fires. -/
theorem tumblerStep_of_synced_fresh (squadSize : Nat) (ts : TumblerState)
    (playerId : String) (atSweetSpot : Bool) (now : Nat)
    (h : allSynced squadSize (tumblerRecord ts playerId atSweetSpot now)
        = true)
    (h2 : ts.syncStart = none) :
    tumblerStep squadSize ts playerId atSweetSpot now
      = (false, { states := tumblerRecord ts playerId atSweetSpot now
                  syncStart := some now }) := by
  unfold tumblerStep
  rw [if_pos h, h2]
  simp

/-- Case equation: gate satisfied with a running hold — fire iff 3 seconds
have elapsed. -/
theorem tumblerStep_of_synced_held (squadSize : Nat) (ts : TumblerState)
    (playerId : String) (atSweetSpot : Bool) (now : Nat) (s0 : Nat)
    (h : allSynced squadSize (tumblerRecord ts playerId atSweetSpot now)
        = true)
    (h2 : ts.syncStart = some s0) :
    tumblerStep squadSize ts playerId atSweetSpot now
      = if (now - s0) / 1000 ≥ 3 then
          (true, { states := [], syncStart := none })
        else
          (false, { states := tumblerRecord ts playerId atSweetSpot now
                    syncStart := some s0 }) := by
  unfold tumblerStep
  rw [if_pos h, h2]
  rfl

/-- Claim C7: re-evaluated on every report (with the 2-second staleness
eviction built into `tumblerRecord`), the gate is satisfied iff the
non-stale recorded member count equals the squad size and every recorded
state is qualifying; a hold-start is recorded when satisfaction begins;
the step fires exactly when the gate is satisfied and a recorded
hold-start lies at least 3000 ms in the past, and firing clears both the
hold-start and the recorded states (a second firing needs a fresh
window); any unsatisfying report yields no firing and clears the
hold-start, so the elapsed hold resets to zero. -/
theorem c7_sync_gate (squadSize : Nat) (ts : TumblerState)
    (playerId : String) (atSweetSpot : Bool) (now : Nat) :
    (allSynced squadSize (tumblerRecord ts playerId atSweetSpot now) = true ↔
      ((tumblerRecord ts playerId atSweetSpot now).length = squadSize ∧
        ∀ e ∈ tumblerRecord ts playerId atSweetSpot now, e.2.1 = true)) ∧
    (allSynced squadSize (tumblerRecord ts playerId atSweetSpot now) = true →
      ts.syncStart = none →
      tumblerStep squadSize ts playerId atSweetSpot now
        = (false, { states := tumblerRecord ts playerId atSweetSpot now
                    syncStart := some now })) ∧
    ((tumblerStep squadSize ts playerId atSweetSpot now).1 = true ↔
      (allSynced squadSize (tumblerRecord ts playerId atSweetSpot now) = true ∧
        ∃ s0, ts.syncStart = some s0 ∧ 3000 ≤ now - s0)) ∧
    ((tumblerStep squadSize ts playerId atSweetSpot now).1 = true →
      (tumblerStep squadSize ts playerId atSweetSpot now).2.states = [] ∧
        (tumblerStep squadSize ts playerId atSweetSpot now).2.syncStart = none) ∧
    (allSynced squadSize (tumblerRecord ts playerId atSweetSpot now) = false →
      tumblerStep squadSize ts playerId atSweetSpot now
        = (false, { states := tumblerRecord ts playerId atSweetSpot now
                    syncStart := none })) ∧
    (allSynced squadSize (tumblerRecord ts playerId atSweetSpot now) = true →
      ∀ s0, ts.syncStart = some s0 → now - s0 < 3000 →
      tumblerStep squadSize ts playerId atSweetSpot now
        = (false, { states := tumblerRecord ts playerId atSweetSpot now
                    syncStart := some s0 })) := by
  have hdiv : ∀ x : Nat, 3 ≤ x / 1000 ↔ 3000 ≤ x := by
    intro x
    rw [Nat.le_div_iff_mul_le (by omega)]
  refine ⟨?_, ?_, ?_, ?_, ?_, ?_⟩
  · unfold allSynced
    simp only [decide_eq_true_eq]
    constructor
    · rintro ⟨h1, h2⟩
      refine ⟨h1, ?_⟩
      have : ((tumblerRecord ts playerId atSweetSpot now).filter
          fun e => e.2.1).length
          = (tumblerRecord ts playerId atSweetSpot now).length := by
        rw [h1, h2]
      exact fun e he => List.filter_length_eq_length.mp this e he
    · rintro ⟨h1, h2⟩
      refine ⟨h1, ?_⟩
      rw [List.filter_length_eq_length.mpr h2]
      exact h1
  · intro h h2
    exact tumblerStep_of_synced_fresh squadSize ts playerId atSweetSpot now h h2
  · cases hsync : allSynced squadSize (tumblerRecord ts playerId atSweetSpot now) with
    | false =>
        rw [tumblerStep_of_not_synced squadSize ts playerId atSweetSpot now hsync]
        simp
    | true =>
        cases hstart : ts.syncStart with
        | none =>
            rw [tumblerStep_of_synced_fresh squadSize ts playerId atSweetSpot now
              hsync hstart]
            simp
        | some s0 =>
            rw [tumblerStep_of_synced_held squadSize ts playerId atSweetSpot now s0
              hsync hstart]
            by_cases h3 : (now - s0) / 1000 ≥ 3
            · rw [if_pos h3]
              constructor
              · intro _
                exact ⟨rfl, s0, rfl, (hdiv (now - s0)).mp h3⟩
              · intro _
                rfl
            · rw [if_neg h3]
              constructor
              · intro hcon
                exact Bool.noConfusion hcon
              · rintro ⟨-, s1, hs1, h3000⟩
                rw [Option.some_inj] at hs1
                subst hs1
                exact (h3 ((hdiv (now - s0)).mpr h3000)).elim
  · intro hfire
    cases hsync : allSynced squadSize (tumblerRecord ts playerId atSweetSpot now) with
    | false =>
        rw [tumblerStep_of_not_synced squadSize ts playerId atSweetSpot now hsync]
          at hfire
        simp at hfire
    | true =>
        cases hstart : ts.syncStart with
        | none =>
            rw [tumblerStep_of_synced_fresh squadSize ts playerId atSweetSpot now
              hsync hstart] at hfire
            simp at hfire
        | some s0 =>
            rw [tumblerStep_of_synced_held squadSize ts playerId atSweetSpot now s0
              hsync hstart] at hfire ⊢
            by_cases h3 : (now - s0) / 1000 ≥ 3
            · rw [if_pos h3]
              exact ⟨rfl, rfl⟩
            · rw [if_neg h3] at hfire
              simp at hfire
  · intro hsync
    exact tumblerStep_of_not_synced squadSize ts playerId atSweetSpot now hsync
  · intro hsync s0 hstart h3000
    rw [tumblerStep_of_synced_held squadSize ts playerId atSweetSpot now s0
      hsync hstart]
    rw [if_neg (fun hcon => by
      have := (hdiv (now - s0)).mp hcon
      omega)]

/-- Claim C7, witness: instantiation at a three-member squad whose third
qualifying report arrives while a hold started 3000 ms earlier is
running, so the step fires. -/
theorem c7_sync_gate_witness :
    (tumblerStep 3
      { states := [("p1", (true, 9000)), ("p2", (true, 9500))]
        syncStart := some 6500 }
      "p3" true 9500).1 = true ∧
    (allSynced 3 (tumblerRecord
      { states := [("p1", (true, 9000)), ("p2", (true, 9500))]
        syncStart := some 6500 } "p3" true 9500) = true ↔
      ((tumblerRecord
          { states := [("p1", (true, 9000)), ("p2", (true, 9500))]
            syncStart := some 6500 } "p3" true 9500).length = 3 ∧
        ∀ e ∈ tumblerRecord
          { states := [("p1", (true, 9000)), ("p2", (true, 9500))]
            syncStart := some 6500 } "p3" true 9500, e.2.1 = true)) :=
  ⟨by decide,
    (c7_sync_gate 3
      { states := [("p1", (true, 9000)), ("p2", (true, 9500))]
        syncStart := some 6500 } "p3" true 9500).1⟩

/-- Claim C3, counterexample: with team size 4 and one registered player,
3 more players are needed, yet the validation failure reads "Need at least
4 players" — the message does not name how many more players are needed
(the numeral 3 does not even occur in it). -/
theorem c3_counterexample :
    ((gmOnePlayer.setPhase rng0 "chain").1.1 = false) ∧
    ((gmOnePlayer.setPhase rng0 "chain").1.2
        = some "Need at least 4 players") ∧
    (gmOnePlayer.squadSize - gmOnePlayer.players.length % gmOnePlayer.squadSize
        = 3) ∧
    ¬ '3' ∈ "Need at least 4 players".toList ∧
    ((gmOnePlayer.setPhase rng0 "chain").1.2
        ≠ some "Need 3 more players for even teams") := by
  decide

/-- Claim C3 (amended): `setPhase("chain")` succeeds iff the player count
is at least the team size and exactly divisible by it; on failure the
state is unchanged and the message names how many more players are needed
only in the non-divisible case — below the minimum it names the required
minimum instead; on success the squads are formed and the phase becomes
`chain`. -/
theorem c3_setPhase_chain (rng : Rng) (gm : GameManager) :
    ((gm.setPhase rng "chain").1.1 = true ↔
      gm.squadSize ≤ gm.players.length ∧
        gm.players.length % gm.squadSize = 0) ∧
    ((gm.setPhase rng "chain").1.1 = false →
      (gm.setPhase rng "chain").2 = gm) ∧
    ((gm.setPhase rng "chain").1.1 = true →
      (gm.setPhase rng "chain").2
        = { GameManager.formSquads rng.shuffle gm with phase := "chain" }) ∧
    (gm.players.length < gm.squadSize →
      (gm.setPhase rng "chain").1.2
        = some ("Need at least " ++ toString gm.squadSize ++ " players")) ∧
    (gm.squadSize ≤ gm.players.length →
      gm.players.length % gm.squadSize ≠ 0 →
      (gm.setPhase rng "chain").1.2
        = some ("Need "
            ++ toString (gm.squadSize - gm.players.length % gm.squadSize)
            ++ " more players for even teams")) := by
  by_cases hlt : gm.players.length < gm.squadSize
  · have hcan : gm.canStartGame
        = (false, "Need at least " ++ toString gm.squadSize ++ " players") := by
      unfold GameManager.canStartGame
      rw [if_pos hlt]
    have hstep : gm.setPhase rng "chain"
        = ((false, some ("Need at least " ++ toString gm.squadSize
            ++ " players")), gm) := by
      unfold GameManager.setPhase
      rw [if_pos rfl, hcan]
      rfl
    rw [hstep]
    refine ⟨?_, fun _ => rfl, fun hok => Bool.noConfusion hok,
      fun _ => rfl, fun hge _ => absurd hge (by omega)⟩
    constructor
    · intro hcon
      exact Bool.noConfusion hcon
    · rintro ⟨hge, -⟩
      omega
  · by_cases hmod : gm.players.length % gm.squadSize = 0
    · have hcan : gm.canStartGame = (true, "Ready to start") := by
        unfold GameManager.canStartGame
        rw [if_neg hlt, if_neg (by omega)]
      have hstep : gm.setPhase rng "chain"
          = ((true, none),
             { GameManager.formSquads rng.shuffle gm with phase := "chain" }) := by
        unfold GameManager.setPhase
        rw [if_pos rfl, hcan]
        rfl
      rw [hstep]
      exact ⟨⟨fun _ => ⟨by omega, hmod⟩, fun _ => rfl⟩,
        fun hcon => Bool.noConfusion hcon, fun _ => rfl,
        fun hcon => absurd hcon hlt, fun _ hcon => absurd hmod hcon⟩
    · have hcan : gm.canStartGame
          = (false, "Need "
              ++ toString (gm.squadSize - gm.players.length % gm.squadSize)
              ++ " more players for even teams") := by
        unfold GameManager.canStartGame
        rw [if_neg hlt, if_pos hmod]
      have hstep : gm.setPhase rng "chain"
          = ((false, some ("Need "
              ++ toString (gm.squadSize - gm.players.length % gm.squadSize)
              ++ " more players for even teams")), gm) := by
        unfold GameManager.setPhase
        rw [if_pos rfl, hcan]
        rfl
      rw [hstep]
      refine ⟨?_, fun _ => rfl, fun hok => Bool.noConfusion hok,
        fun hcon => absurd hcon hlt, fun _ _ => rfl⟩
      constructor
      · intro hcon
        exact Bool.noConfusion hcon
      · rintro ⟨-, hz⟩
        exact absurd hz hmod

/-- Claim C3, witness: four players with team size 2 enter `chain`
successfully, and the amended characterization holds at that state. -/
theorem c3_setPhase_chain_witness :
    ((gmFourPlayers.setPhase rng0 "chain").1.1 = true ↔
      gmFourPlayers.squadSize ≤ gmFourPlayers.players.length ∧
        gmFourPlayers.players.length % gmFourPlayers.squadSize = 0) ∧
    (gmFourPlayers.setPhase rng0 "chain").1.1 = true :=
  ⟨(c3_setPhase_chain rng0 gmFourPlayers).1, by decide⟩

/-- Claim C2: with team size `N` in `[2, 10]` and a player count `P`
divisible by `N`, `formSquads` shuffles (a permutation) and produces
exactly `P / N` squads, each with exactly `N` members in fixed contiguous
order, and the concatenation of all squad member ids is a permutation of
the registered player ids — so every registered player lands in exactly
one squad, with no duplicates as long as the registered ids had none. -/
theorem c2_formSquads_partition (shuffle : Nat → Nat) (gm : GameManager)
    (h1 : 2 ≤ gm.squadSize) (h2 : gm.squadSize ≤ 10)
    (h3 : gm.players.length % gm.squadSize = 0) :
    (GameManager.formSquads shuffle gm).squads.length
        = gm.players.length / gm.squadSize ∧
    (∀ sp ∈ (GameManager.formSquads shuffle gm).squads,
      sp.2.players.length = gm.squadSize) ∧
    List.Perm
      ((((GameManager.formSquads shuffle gm).squads.map
          fun sp => sp.2.players.map fun m => m.id).flatten))
      (gm.players.map fun p => p.id) ∧
    ((gm.players.map fun p => p.id).Nodup →
      ((((GameManager.formSquads shuffle gm).squads.map
          fun sp => sp.2.players.map fun m => m.id).flatten)).Nodup) := by
  have hperm : List.Perm (fisherYates shuffle gm.players) gm.players :=
    fisherYates_perm shuffle gm.players
  have hlen : (fisherYates shuffle gm.players).length = gm.players.length :=
    hperm.length_eq
  have hdvd : gm.squadSize ∣ (fisherYates shuffle gm.players).length := by
    rw [hlen]
    exact Nat.dvd_of_mod_eq_zero h3
  have hq : (fisherYates shuffle gm.players).length
      = ((fisherYates shuffle gm.players).length / gm.squadSize)
          * gm.squadSize :=
    (Nat.div_mul_cancel hdvd).symm
  have hchunklen : ∀ k,
      k < (fisherYates shuffle gm.players).length / gm.squadSize →
      (((fisherYates shuffle gm.players).drop (k * gm.squadSize)).take
          gm.squadSize).length = gm.squadSize := by
    intro k hk
    rw [List.length_take, List.length_drop]
    have h5 : (fisherYates shuffle gm.players).length - k * gm.squadSize
        = ((fisherYates shuffle gm.players).length / gm.squadSize - k)
            * gm.squadSize := by
      rw [Nat.sub_mul, ← hq]
    rw [h5]
    have h6 : 1 ≤ (fisherYates shuffle gm.players).length / gm.squadSize - k := by
      omega
    have h7 : gm.squadSize
        ≤ ((fisherYates shuffle gm.players).length / gm.squadSize - k)
            * gm.squadSize := by
      calc gm.squadSize = 1 * gm.squadSize := (Nat.one_mul _).symm
        _ ≤ _ := Nat.mul_le_mul_right _ h6
    exact Nat.min_eq_left h7
  have hchunkle : ∀ k : Nat,
      (((fisherYates shuffle gm.players).drop (k * gm.squadSize)).take
          gm.squadSize).length ≤ gm.squadSize := by
    intro k
    rw [List.length_take]
    omega
  have hids : ∀ k : Nat,
      ((((fisherYates shuffle gm.players).drop (k * gm.squadSize)).take
            gm.squadSize).foldl (fun sq p => (sq.addPlayer p).2)
          (mkSquad ("squad_" ++ toString (k + 1)) gm.squadSize)).players.map
          (fun m => m.id)
        = (((fisherYates shuffle gm.players).drop (k * gm.squadSize)).take
              gm.squadSize).map fun p => p.id := by
    intro k
    have := foldl_addPlayer_ids
      (((fisherYates shuffle gm.players).drop (k * gm.squadSize)).take
        gm.squadSize)
      (mkSquad ("squad_" ++ toString (k + 1)) gm.squadSize)
      (by simp only [mkSquad, List.length_nil, Nat.zero_add]; exact hchunkle k)
    simpa [mkSquad] using this
  refine ⟨?_, ?_, ?_, ?_⟩
  · rw [formSquads_squads]
    simp [hlen]
  · intro sp hsp
    rw [formSquads_squads] at hsp
    simp only [List.mem_map, List.mem_range] at hsp
    obtain ⟨k, hk, rfl⟩ := hsp
    have hlenmap := congrArg List.length (hids k)
    simp only [List.length_map] at hlenmap
    rw [hlenmap, hchunklen k hk]
  · have hmaps : ((GameManager.formSquads shuffle gm).squads.map
        fun sp => sp.2.players.map fun m => m.id)
        = (List.range
            ((fisherYates shuffle gm.players).length / gm.squadSize)).map
            fun k =>
              (((fisherYates shuffle gm.players).map fun p => p.id).drop
                  (k * gm.squadSize)).take gm.squadSize := by
      rw [formSquads_squads, List.map_map]
      refine List.map_congr_left ?_
      intro k _
      simp only [Function.comp]
      rw [hids k, List.map_take, List.map_drop]
    rw [hmaps, chunks_join gm.squadSize _ _ (by
      rw [List.length_map]
      exact hq)]
    exact hperm.map fun p => p.id
  · intro hnodup
    have hmaps : ((GameManager.formSquads shuffle gm).squads.map
        fun sp => sp.2.players.map fun m => m.id)
        = (List.range
            ((fisherYates shuffle gm.players).length / gm.squadSize)).map
            fun k =>
              (((fisherYates shuffle gm.players).map fun p => p.id).drop
                  (k * gm.squadSize)).take gm.squadSize := by
      rw [formSquads_squads, List.map_map]
      refine List.map_congr_left ?_
      intro k _
      simp only [Function.comp]
      rw [hids k, List.map_take, List.map_drop]
    rw [hmaps, chunks_join gm.squadSize _ _ (by
      rw [List.length_map]
      exact hq)]
    exact ((hperm.map fun p => p.id).nodup_iff).mpr hnodup

/-- Claim C2, witness: four players, team size 2, trivial shuffle draws —
two squads of two, covering all ids. -/
theorem c2_formSquads_partition_witness :
    (2 ≤ gmFourPlayers.squadSize ∧ gmFourPlayers.squadSize ≤ 10 ∧
      gmFourPlayers.players.length % gmFourPlayers.squadSize = 0) ∧
    ((GameManager.formSquads (fun _ => 0) gmFourPlayers).squads.length
        = gmFourPlayers.players.length / gmFourPlayers.squadSize ∧
      ∀ sp ∈ (GameManager.formSquads (fun _ => 0) gmFourPlayers).squads,
        sp.2.players.length = gmFourPlayers.squadSize) ∧
    List.Perm
      ((((GameManager.formSquads (fun _ => 0) gmFourPlayers).squads.map
          fun sp => sp.2.players.map fun m => m.id).flatten))
      (gmFourPlayers.players.map fun p => p.id) :=
  ⟨⟨by decide, by decide, by decide⟩,
    ⟨(c2_formSquads_partition (fun _ => 0) gmFourPlayers (by decide)
        (by decide) (by decide)).1,
      (c2_formSquads_partition (fun _ => 0) gmFourPlayers (by decide)
        (by decide) (by decide)).2.1⟩,
    (c2_formSquads_partition (fun _ => 0) gmFourPlayers (by decide)
      (by decide) (by decide)).2.2.1⟩

/-- Replacing the first binding of a key whose squad holds no finish
position by one holding `pos` adds exactly `pos` to the multiset of
assigned positions. -/
theorem finishPositions_setKey (m : List (String × Squad)) (k : String)
    (sq sq2 : Squad) (pos : Nat) (hl : lookupKey m k = some sq)
    (hnone : sq.finishPosition = none)
    (hpos : sq2.finishPosition = some pos) :
    List.Perm ((setKey m k sq2).filterMap fun sp => sp.2.finishPosition)
      (pos :: m.filterMap fun sp => sp.2.finishPosition) := by
  induction m with
  | nil => simp [lookupKey] at hl
  | cons hd rest ih =>
      obtain ⟨k2, v2⟩ := hd
      by_cases hk : k2 = k
      · subst hk
        simp only [lookupKey, if_true, eq_self_iff_true, Option.some_inj] at hl
        subst hl
        simp [setKey, List.filterMap_cons, hpos, hnone]
      · simp only [lookupKey, if_neg hk] at hl
        simp only [setKey, if_neg hk, List.filterMap_cons]
        cases hv : v2.finishPosition with
        | none => exact ih hl
        | some p2 =>
            exact ((ih hl).cons p2).trans (List.Perm.swap pos p2 _)

/-- `range' 1` grows by appending the new counter value. -/
theorem range'_one_succ (c : Nat) :
    List.Perm ((c + 1) :: List.range' 1 c) (List.range' 1 (c + 1)) := by
  rw [List.range'_concat]
  have h : 1 + 1 * c = c + 1 := by omega
  rw [h]
  exact (List.perm_append_singleton _ _).symm

/-- Claim C6: the multiset of finish positions stored across squads always
equals `{1, …, finishCounter}` — a gapless sequence starting at 1 with
each value issued to exactly one team — and one `verify_code` step
preserves this; a team that already finished gets its stored position back
with the whole state unchanged (no counter increment); a first success
takes exactly the next counter value; and a freshly formed session
(no positions, counter 0) satisfies the invariant. -/
theorem c6_finish_positions (st : ServerState) (playerId : String)
    (code : List Char) (now : Nat) :
    (List.Perm (st.gm.squads.filterMap fun sp => sp.2.finishPosition)
        (List.range' 1 st.finishCounter) →
      List.Perm
        ((verifyCodeHandler st playerId code now).2.gm.squads.filterMap
          fun sp => sp.2.finishPosition)
        (List.range' 1
          (verifyCodeHandler st playerId code now).2.finishCounter)) ∧
    (∀ player squadId squad position,
      st.gm.players.find? (fun p => p.id = playerId) = some player →
      player.squad = some squadId →
      lookupKey st.gm.squads squadId = some squad →
      squad.finishPosition = some position →
      verifyCodeHandler st playerId code now = ((true, some position), st)) ∧
    (∀ player squadId squad,
      st.gm.players.find? (fun p => p.id = playerId) = some player →
      player.squad = some squadId →
      lookupKey st.gm.squads squadId = some squad →
      squad.finishPosition = none →
      st.gm.verifyCode squadId code = true →
      (verifyCodeHandler st playerId code now).1
          = (true, some (st.finishCounter + 1)) ∧
        (verifyCodeHandler st playerId code now).2.finishCounter
          = st.finishCounter + 1) ∧
    ((∀ sp ∈ st.gm.squads, sp.2.finishPosition = none) →
      st.finishCounter = 0 →
      List.Perm (st.gm.squads.filterMap fun sp => sp.2.finishPosition)
        (List.range' 1 st.finishCounter)) := by
  refine ⟨?_, ?_, ?_, ?_⟩
  · intro hinv
    cases hfind : st.gm.players.find? (fun p => p.id = playerId) with
    | none => simpa [verifyCodeHandler, hfind] using hinv
    | some player =>
        cases hsq : player.squad with
        | none => simpa [verifyCodeHandler, hfind, hsq] using hinv
        | some squadId =>
            cases hlook : lookupKey st.gm.squads squadId with
            | none => simpa [verifyCodeHandler, hfind, hsq, hlook] using hinv
            | some squad =>
                cases hfin : squad.finishPosition with
                | some position =>
                    simpa [verifyCodeHandler, hfind, hsq, hlook, hfin]
                      using hinv
                | none =>
                    cases hver : st.gm.verifyCode squadId code with
                    | false =>
                        simpa [verifyCodeHandler, hfind, hsq, hlook, hfin,
                          hver] using hinv
                    | true =>
                        have hstep : verifyCodeHandler st playerId code now
                            = ((true, some (st.finishCounter + 1)),
                               { gm := { st.gm with
                                   squads := setKey st.gm.squads squadId
                                     (squad.markComplete now
                                       (st.finishCounter + 1)) }
                                 finishCounter := st.finishCounter + 1 }) := by
                          simp [verifyCodeHandler, hfind, hsq, hlook, hfin,
                            hver]
                        rw [hstep]
                        have hper := finishPositions_setKey st.gm.squads
                          squadId squad
                          (squad.markComplete now (st.finishCounter + 1))
                          (st.finishCounter + 1) hlook hfin rfl
                        exact hper.trans
                          ((hinv.cons (st.finishCounter + 1)).trans
                            (range'_one_succ st.finishCounter))
  · intro player squadId squad position hfind hsq hlook hfin
    simp [verifyCodeHandler, hfind, hsq, hlook, hfin]
  · intro player squadId squad hfind hsq hlook hfin hver
    constructor <;> simp [verifyCodeHandler, hfind, hsq, hlook, hfin, hver]
  · intro hall hzero
    rw [hzero, List.range'_zero, List.filterMap_eq_nil_iff.mpr hall]

/-- Claim C6, witness: in a fresh session the first correct submission
takes position 1 and the invariant transports across the step. -/
theorem c6_finish_positions_witness :
    (lookupKey stNoFinisher.gm.squads "squad_1" = some squadTwoFresh) ∧
    squadTwoFresh.finishPosition = none ∧
    stNoFinisher.gm.verifyCode "squad_1" ['a', '3'] = true ∧
    ((verifyCodeHandler stNoFinisher "p1" ['a', '3'] 5000).1
        = (true, some (stNoFinisher.finishCounter + 1)) ∧
      (verifyCodeHandler stNoFinisher "p1" ['a', '3'] 5000).2.finishCounter
        = stNoFinisher.finishCounter + 1) :=
  ⟨by decide, by decide, by decide,
    (c6_finish_positions stNoFinisher "p1" ['a', '3'] 5000).2.2.1
      { id := "p1", squad := some "squad_1" } "squad_1" squadTwoFresh
      (by decide) rfl (by decide) (by decide) (by decide)⟩

/-- The per-squad heist side effects: puzzle id recorded, but the recorded
correct answer index is the fresh uniform draw from `[0, 9)` that
overwrites the puzzle's correct index; minigame and view set. -/
theorem applyHeistSquad_fields (rng : Rng) (k : Nat) (sq : Squad) :
    (applyHeistSquad rng k sq).puzzleId
        = some (getRandomPuzzle (rng.puzzleChoice k)).id ∧
    (applyHeistSquad rng k sq).correctSymbol = rng.symbolChoice k % 9 ∧
    (applyHeistSquad rng k sq).currentMinigame = some "signal_jammer" ∧
    (applyHeistSquad rng k sq).currentView = "signal_jammer" :=
  ⟨rfl, rfl, rfl, rfl⟩

/-- The squads after `setPhase("heist")`: each squad at index `k` is
transformed by `applyHeistSquad` with the `k`-th oracle draws. -/
theorem setPhase_heist_squads (rng : Rng) (gm : GameManager) :
    (gm.setPhase rng "heist").2.squads
      = gm.squads.enum.map fun p => (p.2.1, applyHeistSquad rng p.1 p.2.2) :=
  rfl

/-- Claim C8 (amended): entering `heist` assigns each formed team a puzzle
drawn from the catalog and records its id — but the recorded correct
answer index is then overwritten by an independent uniform draw from
`[0, 9)`, so it is not the selected puzzle's correct index; a subsequent
guess succeeds exactly when it matches the recorded (overwritten) index,
not the puzzle's correct index. -/
theorem c8_heist_assignment (rng : Rng) (gm : GameManager) :
    (∀ (k : Nat) (sq0 : String × Squad), gm.squads[k]? = some sq0 →
      (gm.setPhase rng "heist").2.squads[k]?
          = some (sq0.1, applyHeistSquad rng k sq0.2) ∧
        (applyHeistSquad rng k sq0.2).puzzleId
          = some (getRandomPuzzle (rng.puzzleChoice k)).id ∧
        (applyHeistSquad rng k sq0.2).correctSymbol
          = rng.symbolChoice k % 9) ∧
    (∀ (gm2 : GameManager) (playerId squadId : String) (player : Player)
        (squad : Squad) (symbolIndex : Nat),
      gm2.players.find? (fun p => p.id = playerId) = some player →
      player.squad = some squadId →
      lookupKey gm2.squads squadId = some squad →
      ((gm2.handleSignalJammerGuess playerId symbolIndex).1.1 = true ↔
        symbolIndex = squad.correctSymbol)) := by
  constructor
  · intro k sq0 hk
    refine ⟨?_, rfl, rfl⟩
    rw [setPhase_heist_squads]
    rw [List.getElem?_map]
    rw [List.getElem?_enum, hk]
    rfl
  · intro gm2 playerId squadId player squad symbolIndex hfind hsq hlook
    by_cases hguess : symbolIndex = squad.correctSymbol
    · simp [GameManager.handleSignalJammerGuess, hfind, hsq, hlook, hguess]
    · simp [GameManager.handleSignalJammerGuess, hfind, hsq, hlook, hguess]

/-- Claim C8, counterexample: with all-zero oracle draws, `squad_1` gets
the puzzle `cyber_runes` (correct index 7) on entering `heist`, yet its
recorded correct answer index is the overwriting draw 0: guessing 7 — the
assigned puzzle's correct index — fails, while guessing 0 succeeds. -/
theorem c8_counterexample :
    ((lookupKey (gmFreshSquad.setPhase rng0 "heist").2.squads "squad_1").map
        (fun sq => sq.puzzleId) = some (some "cyber_runes")) ∧
    ((lookupKey (gmFreshSquad.setPhase rng0 "heist").2.squads "squad_1").map
        (fun sq => sq.correctSymbol) = some 0) ∧
    (getRandomPuzzle (rng0.puzzleChoice 0)).correctIndex = 7 ∧
    ((gmFreshSquad.setPhase rng0 "heist").2.handleSignalJammerGuess "p1" 7).1.1
        = false ∧
    ((gmFreshSquad.setPhase rng0 "heist").2.handleSignalJammerGuess "p1" 0).1.1
        = true := by
  decide

/-- Claim C8, witness: the amended characterization evaluated on the fresh
squad with all-zero draws. -/
theorem c8_heist_assignment_witness :
    gmFreshSquad.squads[0]? = some ("squad_1", squadTwoFresh) ∧
    ((gmFreshSquad.setPhase rng0 "heist").2.squads[0]?
        = some ("squad_1", applyHeistSquad rng0 0 squadTwoFresh) ∧
      (applyHeistSquad rng0 0 squadTwoFresh).puzzleId
        = some (getRandomPuzzle (rng0.puzzleChoice 0)).id ∧
      (applyHeistSquad rng0 0 squadTwoFresh).correctSymbol
        = rng0.symbolChoice 0 % 9) :=
  ⟨by decide,
    (c8_heist_assignment rng0 gmFreshSquad).1 0 ("squad_1", squadTwoFresh)
      (by decide)⟩

/-- Claim C4, witness: in the fresh two-member squad, `p1` confirming `p2`
is accepted, and the characterization holds there. -/
theorem c4_recordScan_accept_iff_witness :
    ((squadTwoFresh.recordScan "p1" "p2").1 = true ↔
      ∃ i, squadTwoFresh.players.findIdx? (fun p => p.id = "p1") = some i ∧
        ∃ m, squadTwoFresh.players[(i + 1) % squadTwoFresh.players.length]?
            = some m ∧ m.id = "p2") ∧
    (squadTwoFresh.recordScan "p1" "p2").1 = true :=
  ⟨(c4_recordScan_accept_iff squadTwoFresh "p1" "p2").1, by decide⟩
